import Mathlib

/-!
Shallow embedding of the challenge-solving core of the Silica-Protocol/wallet
client: the Argon2id proof-of-work solver (`ChallengeService.solveChallenge`,
src/app/core/services/challenge.service.ts), the leading-zero-bit test, and the
Network Utility Work dispatcher with its solvers
(`NuwChallengeService`, src/app/core/services/nuw-challenge.service.ts).

Bytes are modelled as `Nat` (Uint8Array entries are always `< 256`); byte
arrays as `List Nat`; hex strings as `String`.  External cryptographic
primitives (the hash-wasm `argon2id` call, WebCrypto Ed25519 verification,
SHA-256) are modelled as explicit oracle parameters: the TypeScript code only
observes their result, or the fact that they threw (`Option`, with `none` for
a thrown error).  `Date.now()` is passed in as an explicit `now` (seconds).
Fallible methods return `Except` carrying the thrown error's `code` field.
-/

/-- Hex digit value accepted by JavaScript `parseInt(·, 16)`:
`0-9`, `a-f`, `A-F`. -/
def hexDigitVal (c : Char) : Option Nat :=
  if '0' ≤ c ∧ c ≤ '9' then some (c.toNat - 48)
  else if 'a' ≤ c ∧ c ≤ 'f' then some (c.toNat - 87)
  else if 'A' ≤ c ∧ c ≤ 'F' then some (c.toNat - 55)
  else none

/-- One byte of `hexToBytes`: JavaScript
`parseInt(hex.substr(i * 2, 2), 16)` stored into a `Uint8Array` slot.
`parseInt` parses the longest valid prefix of the (at most two) characters and
yields `NaN` when the first character is invalid; `Uint8Array` stores `NaN`
as `0`.  (Other `parseInt` quirks — whitespace, signs, `0x` — cannot arise
from two-character substrings of the hex alphabet and are not modelled.) -/
def jsParseHexPair : List Char → Nat
  | [] => 0
  | [c] => (hexDigitVal c).getD 0
  | c₁ :: c₂ :: _ =>
    match hexDigitVal c₁, hexDigitVal c₂ with
    | some d₁, some d₂ => 16 * d₁ + d₂
    | some d₁, none => d₁
    | none, _ => 0

/-- Model of `hexToBytes` (identical private helper in both services): allocates
`Uint8Array(hex.length / 2)` (floor division) and fills byte `i` from
`hex.substr(i * 2, 2)`. -/
def hexToBytes (hex : String) : List Nat :=
  (List.range (hex.length / 2)).map fun i =>
    jsParseHexPair ((hex.toList.drop (2 * i)).take 2)

/-- Lower-case hex digit, as produced by JavaScript `Number.toString(16)`. -/
def hexChar (n : Nat) : Char :=
  if n < 10 then Char.ofNat (48 + n) else Char.ofNat (87 + n)

/-- Model of `b.toString(16).padStart(2, '0')` for a byte `b < 256`. -/
def byteToHex (b : Nat) : String :=
  String.mk [hexChar (b / 16 % 16), hexChar (b % 16)]

/-- Model of `bytesToHex` (identical private helper in both services). -/
def bytesToHex (bytes : List Nat) : String :=
  String.join (bytes.map byteToHex)

/-- The 8-byte big-endian encoding of a counter, as produced by
`new DataView(counterBytes.buffer).setBigUint64(0, BigInt(counter), false)`
on a fresh `Uint8Array(8)`. -/
def beBytes8 (n : Nat) : List Nat :=
  [n / 2 ^ 56 % 256, n / 2 ^ 48 % 256, n / 2 ^ 40 % 256, n / 2 ^ 32 % 256,
   n / 2 ^ 24 % 256, n / 2 ^ 16 % 256, n / 2 ^ 8 % 256, n % 256]

/-- Model of `hasLeadingZeros` — byte-for-byte identical private implementation in
`ChallengeService` and `NuwChallengeService`.

The full-byte loop `if (hash[i] !== 0) return false` reads `hash[i]`, which in
JavaScript is `undefined` (hence `!== 0`) when `i ≥ hash.length`; this is
modelled by comparing `hash.get? i` with `some 0`.  The remainder check masks
`hash[fullBytes]` with `0xFF << (8 - remainingBits)` and is only performed
when `remainingBits > 0 && fullBytes < hash.length`. -/
def hasLeadingZeros (hash : List Nat) (requiredBits : Nat) : Bool :=
  let fullBytes := requiredBits / 8
  let remainingBits := requiredBits % 8
  if (List.range fullBytes).all (fun i => hash.get? i == some 0) then
    if 0 < remainingBits ∧ fullBytes < hash.length then
      ((hash.getD fullBytes 0) &&& (0xFF <<< (8 - remainingBits))) == 0
    else true
  else false

/-- The argument object of a hash-wasm `argon2id({...})` invocation
(`outputType: 'hex'` is implicit: oracles return the hex digest). -/
structure Argon2Call where
  password : List Nat
  salt : List Nat
  memorySize : Nat
  iterations : Nat
  parallelism : Nat
  hashLength : Nat
  deriving DecidableEq

/-- The external `argon2id` primitive: `none` models the promise rejecting
(the WASM routine throwing), `some hex` the hex digest it resolves with. -/
def Argon2Oracle := Argon2Call → Option String

/-- The argument object both services pass to `argon2id`: password is the
8-byte big-endian counter, salt the decoded nonce, `parallelism: 1`
(`DEFAULT_PARALLELISM`), `hashLength: 32` (`DEFAULT_HASH_LENGTH`), and the
challenge's `memory_cost` / `time_cost` as `memorySize` / `iterations`. -/
def argonCall (salt : List Nat) (memory_cost time_cost counter : Nat) : Argon2Call :=
  { password := beBytes8 counter, salt := salt, memorySize := memory_cost,
    iterations := time_cost, parallelism := 1, hashLength := 32 }

namespace ChallengeService

/-- Model of `TransactionChallenge` (challenge.service.ts). -/
structure TransactionChallenge where
  challenge_id : String
  nonce : String
  difficulty : Nat
  memory_cost : Nat
  time_cost : Nat
  expires_at : Nat
  instructions : String
  deriving DecidableEq

/-- Model of `SolvedChallenge` (challenge.service.ts). -/
structure SolvedChallenge where
  challenge_id : String
  solution : String
  hash : String
  deriving DecidableEq

/-- The `code` field of `ChallengeError`. -/
inductive ChallengeErrorCode where
  | FETCH_FAILED | SOLVE_FAILED | EXPIRED | INVALID | WASM_FAILED
  deriving DecidableEq

/-- The `for (let counter = 0; counter < maxAttempts; counter++)` search of
`ChallengeService.solveChallenge`, as structural recursion on the remaining
attempts (`fuel = maxAttempts - counter`).  Each iteration computes the
8-byte big-endian counter, calls `argon2id`, and returns on the first digest
passing `hasLeadingZeros`; a thrown `argon2id` error is caught and rethrown
as `WASM_FAILED`; an exhausted loop throws `SOLVE_FAILED`.  (The periodic
`yieldToUI()` await has no observable effect and is not modelled.) -/
def solveLoop (oracle : Argon2Oracle) (ch : TransactionChallenge)
    (salt : List Nat) : Nat → Nat → Except ChallengeErrorCode SolvedChallenge
  | 0, _ => .error .SOLVE_FAILED
  | fuel + 1, counter =>
    match oracle (argonCall salt ch.memory_cost ch.time_cost counter) with
    | none => .error .WASM_FAILED
    | some hashHex =>
      if hasLeadingZeros (hexToBytes hashHex) ch.difficulty then
        .ok { challenge_id := ch.challenge_id,
              solution := bytesToHex (beBytes8 counter), hash := hashHex }
      else solveLoop oracle ch salt fuel (counter + 1)

/-- Model of `ChallengeService.solveChallenge(challenge, maxAttempts)`
(default `maxAttempts = 10_000`):
expiry check (`expires_at < now` throws `EXPIRED`), nonce decode and 32-byte
length check (`INVALID`), then the counter search. -/
def solveChallenge (oracle : Argon2Oracle) (now : Nat)
    (ch : TransactionChallenge) (maxAttempts : Nat) :
    Except ChallengeErrorCode SolvedChallenge :=
  if ch.expires_at < now then .error .EXPIRED
  else
    let salt := hexToBytes ch.nonce
    if salt.length ≠ 32 then .error .INVALID
    else solveLoop oracle ch salt maxAttempts 0

end ChallengeService

namespace NuwChallengeService

/-- Model of `NuwChallengeType` (nuw-challenge.service.ts). -/
inductive NuwChallengeType where
  | ARGON2_POW | SIGNATURE_BATCH | ZK_VERIFY | PQ_ASSIST | MERKLE_VERIFY
  deriving DecidableEq

/-- The `algorithm` field of `PendingSignature`. -/
inductive SigAlgorithm where
  | ed25519 | dilithium2
  deriving DecidableEq

/-- Model of `PendingSignature`: one signature-verification work item. -/
structure PendingSignature where
  tx_id : String
  message : String
  signature : String
  public_key : String
  algorithm : SigAlgorithm
  deriving DecidableEq

/-- Model of `ZkProofTask`. -/
structure ZkProofTask where
  proof_id : String
  proof_type : String
  proof : String
  public_inputs : List String
  verification_key : String
  deriving DecidableEq

/-- Model of `MerkleProofTask`. -/
structure MerkleProofTask where
  root : String
  leaf : String
  proof : List String
  index : Nat
  deriving DecidableEq

/-- The `argon2_params` payload of a `NuwChallenge`. -/
structure NuwArgon2Params where
  nonce : String
  difficulty : Nat
  memory_cost : Nat
  time_cost : Nat
  deriving DecidableEq

/-- Model of `NuwChallenge`: the optional type-specific payloads mirror the TypeScript
optional fields (only one is expected to be present). -/
structure NuwChallenge where
  challenge_id : String
  challenge_type : NuwChallengeType
  fee_discount_percent : Nat
  expires_at : Nat
  argon2_params : Option NuwArgon2Params
  signature_batch : Option (List PendingSignature)
  zk_proof : Option ZkProofTask
  merkle_proofs : Option (List MerkleProofTask)
  deriving DecidableEq

/-- One `{ tx_id, valid }` entry of `signature_results`. -/
structure SignatureResult where
  tx_id : String
  valid : Bool
  deriving DecidableEq

/-- The `{ proof_id, valid }` entry of `zk_result`. -/
structure ZkResult where
  proof_id : String
  valid : Bool
  deriving DecidableEq

/-- One `{ index, valid }` entry of `merkle_results`. -/
structure MerkleResult where
  index : Nat
  valid : Bool
  deriving DecidableEq

/-- Model of `NuwSolution`. -/
structure NuwSolution where
  challenge_id : String
  challenge_type : NuwChallengeType
  argon2_solution : Option String
  signature_results : Option (List SignatureResult)
  zk_result : Option ZkResult
  merkle_results : Option (List MerkleResult)
  deriving DecidableEq

/-- The `code` field of `NuwChallengeError`.  Note: this enumeration has no
`WASM_FAILED` member — that code exists only on `ChallengeError`. -/
inductive NuwErrorCode where
  | FETCH_FAILED | SOLVE_FAILED | EXPIRED | INVALID | WASM_UNAVAILABLE
  | UNSUPPORTED_TYPE
  deriving DecidableEq

/-- The platform Ed25519 verify primitive
(`crypto.subtle.importKey` + `crypto.subtle.verify`), taking message,
signature and public key bytes.  `none` models the primitive throwing or
Ed25519 being unavailable in the execution environment (the code's inner
`catch`, which returns `false`); `some b` a completed verification. -/
def EdVerifyOracle := List Nat → List Nat → List Nat → Option Bool

/-- The external SHA-256 primitive (`crypto.subtle.digest('SHA-256', ·)`). -/
def Sha256Oracle := List Nat → List Nat

/-- Model of `NuwChallengeService.verifySignature`: `ed25519` uses the WebCrypto
primitive, degrading to `false` when it is unavailable or throws;
`dilithium2` is unsupported and always yields `false`.  All internal errors
are caught, so the function never throws. -/
def verifySignature (ed : EdVerifyOracle)
    (message sigBytes publicKey : List Nat) : SigAlgorithm → Bool
  | .ed25519 =>
    match ed message sigBytes publicKey with
    | some b => b
    | none => false
  | .dilithium2 => false

/-- Model of `Uint8Array.prototype.set(src, offset)` on a backing array `arr`
(the in-range case: `offset + src.length ≤ arr.length`). -/
def jsSet (arr src : List Nat) (off : Nat) : List Nat :=
  arr.take off ++ src ++ arr.drop (off + src.length)

/-- Model of `const isRight = (index >> i) & 1` — JavaScript `>>` truncates its left
operand to 32 bits and takes the shift count mod 32. -/
def isRightBit (index i : Nat) : Nat :=
  ((index % 2 ^ 32) >>> (i % 32)) &&& 1

/-- The `for (let i = 0; i < proofHex.length; i++)` folding loop of
`NuwChallengeService.verifyMerkleProof`: each step decodes the sibling,
builds the 64-byte `combined` buffer (`sibling` then `current` at offsets
0/32 when `isRight`, the mirror otherwise) and replaces `current` with its
SHA-256 digest. -/
def merkleFoldLoop (sha : Sha256Oracle) (index : Nat) :
    List Nat → Nat → List String → List Nat
  | current, _, [] => current
  | current, i, p :: rest =>
    merkleFoldLoop sha index
      (sha (if isRightBit index i = 1 then
              jsSet (jsSet (List.replicate 64 0) (hexToBytes p) 0) current 32
            else
              jsSet (jsSet (List.replicate 64 0) current 0) (hexToBytes p) 32))
      (i + 1) rest

/-- The trailing comparison of `verifyMerkleProof`: length check, then a
byte-by-byte loop. -/
def jsBytesEqual (a b : List Nat) : Bool :=
  if a.length ≠ b.length then false
  else (List.range a.length).all fun i => a.getD i 0 == b.getD i 0

/-- Model of `NuwChallengeService.verifyMerkleProof`: fold the proof path from the leaf and compare with the root. -/
def verifyMerkleProof (sha : Sha256Oracle) (rootHex leafHex : String)
    (proofHex : List String) (index : Nat) : Bool :=
  jsBytesEqual (merkleFoldLoop sha index (hexToBytes leafHex) 0 proofHex)
    (hexToBytes rootHex)

/-- The `for (let counter = 0; counter < maxAttempts; counter++)` search of
`NuwChallengeService.solveArgon2` (fuel-indexed as in
`ChallengeService.solveLoop`).  Unlike the standalone solver, the `catch`
around the `argon2id` call rethrows with code `SOLVE_FAILED`, and the
returned solution carries only the counter hex (no digest), with
`challenge_type` fixed to `ARGON2_POW`. -/
def solveArgon2Loop (oracle : Argon2Oracle) (ch : NuwChallenge)
    (p : NuwArgon2Params) (salt : List Nat) :
    Nat → Nat → Except NuwErrorCode NuwSolution
  | 0, _ => .error .SOLVE_FAILED
  | fuel + 1, counter =>
    match oracle (argonCall salt p.memory_cost p.time_cost counter) with
    | none => .error .SOLVE_FAILED
    | some hashHex =>
      if hasLeadingZeros (hexToBytes hashHex) p.difficulty then
        .ok { challenge_id := ch.challenge_id, challenge_type := .ARGON2_POW,
              argon2_solution := some (bytesToHex (beBytes8 counter)),
              signature_results := none, zk_result := none,
              merkle_results := none }
      else solveArgon2Loop oracle ch p salt fuel (counter + 1)

/-- Model of `NuwChallengeService.solveArgon2`: missing `argon2_params` is `INVALID`;
otherwise the nonce is hex-decoded into the salt (with no length check) and
the search runs with `maxAttempts = 10_000`. -/
def solveArgon2 (oracle : Argon2Oracle) (ch : NuwChallenge) :
    Except NuwErrorCode NuwSolution :=
  match ch.argon2_params with
  | none => .error .INVALID
  | some p => solveArgon2Loop oracle ch p (hexToBytes p.nonce) 10000 0

/-- Model of `NuwChallengeService.solveSignatureBatch`: missing or empty
`signature_batch` is `INVALID`; otherwise every item contributes a
`{ tx_id, valid }` result in input order (the per-item `try/catch` makes a
failing item record `valid := false` rather than aborting the batch). -/
def solveSignatureBatch (ed : EdVerifyOracle) (ch : NuwChallenge) :
    Except NuwErrorCode NuwSolution :=
  match ch.signature_batch with
  | none => .error .INVALID
  | some batch =>
    if batch.length = 0 then .error .INVALID
    else
      .ok { challenge_id := ch.challenge_id,
            challenge_type := .SIGNATURE_BATCH, argon2_solution := none,
            signature_results := some (batch.map fun sig =>
              { tx_id := sig.tx_id,
                valid := verifySignature ed (hexToBytes sig.message)
                  (hexToBytes sig.signature) (hexToBytes sig.public_key)
                  sig.algorithm }),
            zk_result := none, merkle_results := none }

/-- Model of `NuwChallengeService.solveZkVerify`: missing `zk_proof` is `INVALID`;
otherwise a placeholder `{ proof_id, valid: true }` result is returned
without performing any verification. -/
def solveZkVerify (ch : NuwChallenge) : Except NuwErrorCode NuwSolution :=
  match ch.zk_proof with
  | none => .error .INVALID
  | some task =>
    .ok { challenge_id := ch.challenge_id, challenge_type := .ZK_VERIFY,
          argon2_solution := none, signature_results := none,
          zk_result := some { proof_id := task.proof_id, valid := true },
          merkle_results := none }

/-- Model of `NuwChallengeService.solveMerkleVerify`: missing or empty
`merkle_proofs` is `INVALID`; otherwise each task contributes an
`{ index, valid }` result. -/
def solveMerkleVerify (sha : Sha256Oracle) (ch : NuwChallenge) :
    Except NuwErrorCode NuwSolution :=
  match ch.merkle_proofs with
  | none => .error .INVALID
  | some tasks =>
    if tasks.length = 0 then .error .INVALID
    else
      .ok { challenge_id := ch.challenge_id,
            challenge_type := .MERKLE_VERIFY, argon2_solution := none,
            signature_results := none, zk_result := none,
            merkle_results := some (tasks.map fun t =>
              { index := t.index,
                valid := verifyMerkleProof sha t.root t.leaf t.proof
                  t.index }) }

/-- Model of `NuwChallengeService.solveChallenge`: expiry check
(`expires_at < now` throws `EXPIRED`), then a `switch` on `challenge_type`;
`PQ_ASSIST` falls back to the Argon2 solver.  (The TypeScript `default`
branch throwing `UNSUPPORTED_TYPE` is unreachable here because the Lean
enumeration is closed.) -/
def solveChallenge (oracle : Argon2Oracle) (ed : EdVerifyOracle)
    (sha : Sha256Oracle) (now : Nat) (ch : NuwChallenge) :
    Except NuwErrorCode NuwSolution :=
  if ch.expires_at < now then .error .EXPIRED
  else
    match ch.challenge_type with
    | .ARGON2_POW => solveArgon2 oracle ch
    | .SIGNATURE_BATCH => solveSignatureBatch ed ch
    | .ZK_VERIFY => solveZkVerify ch
    | .MERKLE_VERIFY => solveMerkleVerify sha ch
    | .PQ_ASSIST => solveArgon2 oracle ch

end NuwChallengeService

/-- Spec-side Merkle folding (§4.3 of the specification), for comparison with
the source-derived `verifyMerkleProof`: start from the leaf and, at step `i`,
hash `sibling ‖ current` when bit `i` of `index` (least significant bit
first) is set, `current ‖ sibling` otherwise. -/
def merkleSpecFold (sha : NuwChallengeService.Sha256Oracle) (index : Nat) :
    List Nat → Nat → List String → List Nat
  | current, _, [] => current
  | current, i, p :: rest =>
    merkleSpecFold sha index
      (sha (if index.testBit i then hexToBytes p ++ current
            else current ++ hexToBytes p))
      (i + 1) rest

instance {ε α : Type} [DecidableEq ε] [DecidableEq α] :
    DecidableEq (Except ε α) := fun x y =>
  match x, y with
  | .error a, .error b =>
    if h : a = b then .isTrue (by rw [h])
    else .isFalse (by intro hc; cases hc; exact h rfl)
  | .error _, .ok _ => .isFalse (by intro hc; cases hc)
  | .ok _, .error _ => .isFalse (by intro hc; cases hc)
  | .ok a, .ok b =>
    if h : a = b then .isTrue (by rw [h])
    else .isFalse (by intro hc; cases hc; exact h rfl)

/-! Concrete fixtures used by witnesses and counterexamples. -/

/-- An `argon2id` oracle that always succeeds with the empty hex digest
(which passes the leading-zero test at difficulty 0). -/
def oracleBlank : Argon2Oracle := fun _ => some ""

/-- An `argon2id` oracle whose underlying primitive always throws. -/
def oracleNone : Argon2Oracle := fun _ => none

/-- An Ed25519 primitive that is unavailable (always throws). -/
def edNone : NuwChallengeService.EdVerifyOracle := fun _ _ _ => none

/-- A SHA-256 stand-in returning an all-zero 32-byte digest. -/
def shaZero32 : NuwChallengeService.Sha256Oracle := fun _ => List.replicate 32 0

/-- A 64-character hex string (decodes to 32 zero bytes). -/
def nonce64 : String :=
  "0000000000000000000000000000000000000000000000000000000000000000"

/-- A standalone PoW challenge whose `expires_at` equals the probe time 100.
Difficulty 0, well-formed 32-byte nonce. -/
def chPowAtNow : ChallengeService.TransactionChallenge :=
  { challenge_id := "c1", nonce := nonce64, difficulty := 0,
    memory_cost := 1024, time_cost := 2, expires_at := 100,
    instructions := "solve" }

/-- A `ZK_VERIFY` NUW challenge whose `expires_at` equals the probe time
100. -/
def nuwZkAtNow : NuwChallengeService.NuwChallenge :=
  { challenge_id := "n1", challenge_type := .ZK_VERIFY,
    fee_discount_percent := 50, expires_at := 100, argon2_params := none,
    signature_batch := none,
    zk_proof := some { proof_id := "p1", proof_type := "halo2", proof := "",
                       public_inputs := [], verification_key := "" },
    merkle_proofs := none }

/-- An unexpired `ARGON2_POW` NUW challenge whose nonce decodes to a single
byte (not 32). -/
def nuwShortNonce : NuwChallengeService.NuwChallenge :=
  { challenge_id := "n2", challenge_type := .ARGON2_POW,
    fee_discount_percent := 0, expires_at := 1000,
    argon2_params := some { nonce := "00", difficulty := 0,
                            memory_cost := 1024, time_cost := 2 },
    signature_batch := none, zk_proof := none, merkle_proofs := none }

/-- An unexpired, well-formed `ARGON2_POW` NUW challenge. -/
def nuwPow : NuwChallengeService.NuwChallenge :=
  { challenge_id := "n3", challenge_type := .ARGON2_POW,
    fee_discount_percent := 0, expires_at := 1000,
    argon2_params := some { nonce := nonce64, difficulty := 0,
                            memory_cost := 1024, time_cost := 2 },
    signature_batch := none, zk_proof := none, merkle_proofs := none }

/-- An unexpired, well-formed `PQ_ASSIST` NUW challenge (carrying the Argon2
payload the fallback solver needs). -/
def nuwPq : NuwChallengeService.NuwChallenge :=
  { nuwPow with challenge_id := "n4", challenge_type := .PQ_ASSIST }

/-- An unexpired `SIGNATURE_BATCH` NUW challenge with one ed25519 item. -/
def nuwSigBatch : NuwChallengeService.NuwChallenge :=
  { challenge_id := "n5", challenge_type := .SIGNATURE_BATCH,
    fee_discount_percent := 25, expires_at := 1000, argon2_params := none,
    signature_batch := some
      [{ tx_id := "t1", message := "ab", signature := "cd",
         public_key := "ef", algorithm := .ed25519 }],
    zk_proof := none, merkle_proofs := none }

/-- An unexpired `SIGNATURE_BATCH` NUW challenge with an absent payload. -/
def nuwSigMissing : NuwChallengeService.NuwChallenge :=
  { challenge_id := "n6", challenge_type := .SIGNATURE_BATCH,
    fee_discount_percent := 25, expires_at := 1000, argon2_params := none,
    signature_batch := none, zk_proof := none, merkle_proofs := none }

/-- A hash stand-in that keeps the first 32 bytes of its input — it exposes
which operand of the 64-byte concatenation came first. -/
def shaTake32 : NuwChallengeService.Sha256Oracle := fun bs => bs.take 32

/-- A 64-character hex string decoding to 32 bytes of `0x01`. -/
def hexOnes64 : String :=
  "0101010101010101010101010101010101010101010101010101010101010101"

/-- A 64-character hex string decoding to 32 bytes of `0x02`. -/
def hexTwos64 : String :=
  "0202020202020202020202020202020202020202020202020202020202020202"

/-- A 33-step Merkle proof path: 32 siblings of `0x01…01`, then one of
`0x02…02`.  Step 32's shift count wraps (`32 % 32 = 0`) in the source's
`(index >> i) & 1`. -/
def proof33 : List String := List.replicate 32 hexOnes64 ++ [hexTwos64]

/-! Helper lemmas about the embedded solvers. -/

set_option maxRecDepth 4096 in
/-- The high-bit mask test on a byte is the strict-upper-bound test:
for `b < 256` and `0 < r < 8`,
`b &&& (0xFF <<< (8 - r)) = 0` iff `b < 2 ^ (8 - r)`. -/
theorem maskZero_iff_lt :
    ∀ b < 256, ∀ r < 8, 0 < r →
      (((b &&& (0xFF <<< (8 - r))) == 0) = decide (b < 2 ^ (8 - r))) := by
  decide

/-- If every counter in the window misses, the standalone search exhausts its
fuel with `SOLVE_FAILED`. -/
theorem ChallengeService.solveLoop_all_miss (oracle : Argon2Oracle)
    (ch : ChallengeService.TransactionChallenge) (salt : List Nat)
    (fuel start : Nat)
    (h : ∀ c, start ≤ c → c < start + fuel →
      ∃ d, oracle (argonCall salt ch.memory_cost ch.time_cost c) = some d ∧
        hasLeadingZeros (hexToBytes d) ch.difficulty = false) :
    ChallengeService.solveLoop oracle ch salt fuel start =
      .error .SOLVE_FAILED := by
  induction fuel generalizing start with
  | zero => rfl
  | succ n ih =>
    obtain ⟨d, hd, hmiss⟩ := h start (Nat.le_refl _) (by omega)
    unfold ChallengeService.solveLoop
    rw [hd]
    simp only [hmiss, Bool.false_eq_true, if_false]
    exact ih (start + 1) fun c h1 h2 => h c (by omega) (by omega)

/-- If every counter before `c₀` misses and `c₀` hits, the standalone search
returns `c₀`'s counter hex together with its digest. -/
theorem ChallengeService.solveLoop_found (oracle : Argon2Oracle)
    (ch : ChallengeService.TransactionChallenge) (salt : List Nat)
    (fuel start c₀ : Nat) (d : String)
    (h1 : start ≤ c₀) (h2 : c₀ < start + fuel)
    (hmiss : ∀ c, start ≤ c → c < c₀ →
      ∃ e, oracle (argonCall salt ch.memory_cost ch.time_cost c) = some e ∧
        hasLeadingZeros (hexToBytes e) ch.difficulty = false)
    (hd : oracle (argonCall salt ch.memory_cost ch.time_cost c₀) = some d)
    (hpass : hasLeadingZeros (hexToBytes d) ch.difficulty = true) :
    ChallengeService.solveLoop oracle ch salt fuel start =
      .ok { challenge_id := ch.challenge_id,
            solution := bytesToHex (beBytes8 c₀), hash := d } := by
  induction fuel generalizing start with
  | zero => omega
  | succ n ih =>
    unfold ChallengeService.solveLoop
    by_cases hc : start = c₀
    · subst hc
      rw [hd]
      simp only [hpass, if_true]
    · obtain ⟨e, he, hmiss'⟩ := hmiss start (Nat.le_refl _) (by omega)
      rw [he]
      simp only [hmiss', Bool.false_eq_true, if_false]
      exact ih (start + 1) (by omega) (by omega)
        (fun c hx hy => hmiss c (by omega) hy)

/-- If every counter before `k` misses and the primitive throws at `k`, the
standalone search fails with `WASM_FAILED`. -/
theorem ChallengeService.solveLoop_primitive_error (oracle : Argon2Oracle)
    (ch : ChallengeService.TransactionChallenge) (salt : List Nat)
    (fuel start k : Nat)
    (h1 : start ≤ k) (h2 : k < start + fuel)
    (hmiss : ∀ c, start ≤ c → c < k →
      ∃ e, oracle (argonCall salt ch.memory_cost ch.time_cost c) = some e ∧
        hasLeadingZeros (hexToBytes e) ch.difficulty = false)
    (hk : oracle (argonCall salt ch.memory_cost ch.time_cost k) = none) :
    ChallengeService.solveLoop oracle ch salt fuel start =
      .error .WASM_FAILED := by
  induction fuel generalizing start with
  | zero => omega
  | succ n ih =>
    unfold ChallengeService.solveLoop
    by_cases hc : start = k
    · subst hc
      rw [hk]
    · obtain ⟨e, he, hmiss'⟩ := hmiss start (Nat.le_refl _) (by omega)
      rw [he]
      simp only [hmiss', Bool.false_eq_true, if_false]
      exact ih (start + 1) (by omega) (by omega)
        (fun c hx hy => hmiss c (by omega) hy)

/-! Theorems settling the specification claims. -/

/-- C4: for every digest (of bytes `< 256`) and every `requiredBits ∈ [0, 256]`,
`hasLeadingZeros` returns true exactly when the first `⌊requiredBits/8⌋` bytes
of the digest exist and are all zero and, when `requiredBits % 8 > 0` and byte
index `⌊requiredBits/8⌋` is within the digest, the top `requiredBits % 8` bits
of that byte are also zero (i.e. the byte is `< 2 ^ (8 - requiredBits % 8)`);
a remainder byte beyond the end of the digest is treated as automatically
satisfied.  The function is a pure, deterministic Lean function. -/
theorem C4_hasLeadingZeros (digest : List Nat) (requiredBits : Nat)
    (hbits : requiredBits ≤ 256) (hbytes : ∀ b ∈ digest, b < 256) :
    hasLeadingZeros digest requiredBits = true ↔
      ((∀ i < requiredBits / 8, digest.get? i = some 0) ∧
       (0 < requiredBits % 8 → requiredBits / 8 < digest.length →
        digest.getD (requiredBits / 8) 0 < 2 ^ (8 - requiredBits % 8))) := by
  clear hbits
  unfold hasLeadingZeros
  by_cases hall : ((List.range (requiredBits / 8)).all
      (fun i => digest.get? i == some 0)) = true
  · have hall' : ∀ i < requiredBits / 8, digest.get? i = some 0 := by
      intro i hi
      exact beq_iff_eq.mp (List.all_eq_true.mp hall i (List.mem_range.mpr hi))
    simp only [hall, if_true]
    by_cases hg : 0 < requiredBits % 8 ∧ requiredBits / 8 < digest.length
    · rw [if_pos hg]
      have hmem : digest.getD (requiredBits / 8) 0 ∈ digest := by
        rw [List.getD_eq_getElem?_getD]
        rcases h : digest[requiredBits / 8]? with _ | b
        · exact absurd (List.getElem?_eq_none_iff.mp h)
            (Nat.not_le.mpr hg.2)
        · simpa using List.getElem?_mem h
      rw [maskZero_iff_lt _ (hbytes _ hmem) (requiredBits % 8)
        (Nat.mod_lt _ (by norm_num)) hg.1]
      simp only [decide_eq_true_eq, List.getD_eq_getElem?_getD]
      constructor
      · intro h
        exact ⟨fun i hi => by simpa using hall' i hi, fun _ _ => h⟩
      · intro h; exact h.2 hg.1 hg.2
    · rw [if_neg hg]
      rw [Decidable.not_and_iff_or_not] at hg
      constructor
      · intro _
        refine ⟨hall', fun h1 h2 => ?_⟩
        rcases hg with hg | hg
        · exact absurd h1 hg
        · exact absurd h2 hg
      · intro _; rfl
  · simp only [hall, if_false]
    constructor
    · intro h; exact absurd h (by simp)
    · rintro ⟨h1, _⟩
      exfalso
      apply hall
      refine List.all_eq_true.mpr fun i hi => ?_
      exact beq_iff_eq.mpr (h1 i (List.mem_range.mp hi))

/-- Witness for C4 at digest `[0, 15]`, `requiredBits = 12`. -/
theorem C4_hasLeadingZeros_witness :
    hasLeadingZeros ([0, 15] : List Nat) 12 = true ↔
      ((∀ i < 12 / 8, ([0, 15] : List Nat).get? i = some 0) ∧
       (0 < 12 % 8 → 12 / 8 < ([0, 15] : List Nat).length →
        ([0, 15] : List Nat).getD (12 / 8) 0 < 2 ^ (8 - 12 % 8))) :=
  C4_hasLeadingZeros [0, 15] 12 (by norm_num) (by decide)

/-- C1: for a PoW challenge that has not expired (`¬ expires_at < now`) and
whose nonce decodes to exactly 32 bytes, and an `argon2id` primitive that
returns digest `digest c` for the call with password `beBytes8 c`, salt the
decoded nonce, `memorySize = memory_cost`, `iterations = time_cost`,
`parallelism = 1` and `hashLength = 32` (see `argonCall`):
(a) if `c₀ < maxAttempts` is the first counter whose digest passes the
leading-zero test at the challenge's difficulty, the solver returns `c₀` as
the hex of its 8-byte big-endian form together with that digest;
(b) if no counter in `[0, maxAttempts)` passes, it fails with
`SOLVE_FAILED`. -/
theorem C1_solveChallenge_search (oracle : Argon2Oracle) (now : Nat)
    (ch : ChallengeService.TransactionChallenge) (maxAttempts : Nat)
    (digest : Nat → String)
    (hexp : ¬ ch.expires_at < now)
    (hnonce : (hexToBytes ch.nonce).length = 32)
    (horacle : ∀ c, oracle
      (argonCall (hexToBytes ch.nonce) ch.memory_cost ch.time_cost c) =
        some (digest c)) :
    (∀ c₀, c₀ < maxAttempts →
      hasLeadingZeros (hexToBytes (digest c₀)) ch.difficulty = true →
      (∀ c < c₀,
        hasLeadingZeros (hexToBytes (digest c)) ch.difficulty = false) →
      ChallengeService.solveChallenge oracle now ch maxAttempts =
        .ok { challenge_id := ch.challenge_id,
              solution := bytesToHex (beBytes8 c₀), hash := digest c₀ }) ∧
    ((∀ c < maxAttempts,
        hasLeadingZeros (hexToBytes (digest c)) ch.difficulty = false) →
      ChallengeService.solveChallenge oracle now ch maxAttempts =
        .error .SOLVE_FAILED) := by
  constructor
  · intro c₀ hlt hpass hmiss
    unfold ChallengeService.solveChallenge
    rw [if_neg hexp, if_neg (by rw [hnonce]; exact fun h => h rfl)]
    exact ChallengeService.solveLoop_found oracle ch (hexToBytes ch.nonce)
      maxAttempts 0 c₀ (digest c₀) (Nat.zero_le _) (by omega)
      (fun c _ hc => ⟨digest c, horacle c, hmiss c hc⟩) (horacle c₀) hpass
  · intro hmiss
    unfold ChallengeService.solveChallenge
    rw [if_neg hexp, if_neg (by rw [hnonce]; exact fun h => h rfl)]
    exact ChallengeService.solveLoop_all_miss oracle ch (hexToBytes ch.nonce)
      maxAttempts 0 (fun c _ hc => ⟨digest c, horacle c, hmiss c (by omega)⟩)

/-- Witness for C1 at `chPowAtNow` (difficulty 0), `now = 50`,
`maxAttempts = 10000`, with a primitive that always returns the empty digest:
the first counter `0` passes, and the solver returns its hex form. -/
theorem C1_solveChallenge_search_witness :
    ChallengeService.solveChallenge oracleBlank 50 chPowAtNow 10000 =
      .ok { challenge_id := chPowAtNow.challenge_id,
            solution := bytesToHex (beBytes8 0), hash := "" } :=
  (C1_solveChallenge_search oracleBlank 50 chPowAtNow 10000 (fun _ => "")
    (by decide) (by decide) (fun _ => rfl)).1 0 (by decide) (by decide)
    (fun c hc => absurd hc (Nat.not_lt_zero c))

/-- If every counter before `k` misses and the primitive throws at `k`, the
NUW Argon2 search fails with `SOLVE_FAILED` (its `catch` block's code). -/
theorem NuwChallengeService.solveArgon2Loop_primitive_error
    (oracle : Argon2Oracle) (ch : NuwChallengeService.NuwChallenge)
    (p : NuwChallengeService.NuwArgon2Params) (salt : List Nat)
    (fuel start k : Nat)
    (h1 : start ≤ k) (h2 : k < start + fuel)
    (hmiss : ∀ c, start ≤ c → c < k →
      ∃ e, oracle (argonCall salt p.memory_cost p.time_cost c) = some e ∧
        hasLeadingZeros (hexToBytes e) p.difficulty = false)
    (hk : oracle (argonCall salt p.memory_cost p.time_cost k) = none) :
    NuwChallengeService.solveArgon2Loop oracle ch p salt fuel start =
      .error .SOLVE_FAILED := by
  induction fuel generalizing start with
  | zero => omega
  | succ n ih =>
    unfold NuwChallengeService.solveArgon2Loop
    by_cases hc : start = k
    · subst hc
      rw [hk]
    · obtain ⟨e, he, hmiss'⟩ := hmiss start (Nat.le_refl _) (by omega)
      rw [he]
      simp only [hmiss', Bool.false_eq_true, if_false]
      exact ih (start + 1) (by omega) (by omega)
        (fun c hx hy => hmiss c (by omega) hy)

/-- Any successful result of the NUW Argon2 search has `challenge_type`
`ARGON2_POW`, a present `argon2_solution`, and no other result payload. -/
theorem NuwChallengeService.solveArgon2Loop_ok_shape
    (oracle : Argon2Oracle) (ch : NuwChallengeService.NuwChallenge)
    (p : NuwChallengeService.NuwArgon2Params) (salt : List Nat)
    (fuel start : Nat) (sol : NuwChallengeService.NuwSolution)
    (h : NuwChallengeService.solveArgon2Loop oracle ch p salt fuel start =
      .ok sol) :
    sol.challenge_id = ch.challenge_id ∧
    sol.challenge_type = .ARGON2_POW ∧
    sol.argon2_solution.isSome = true ∧
    sol.signature_results = none ∧ sol.zk_result = none ∧
    sol.merkle_results = none := by
  induction fuel generalizing start with
  | zero => exact absurd h (by simp [NuwChallengeService.solveArgon2Loop])
  | succ n ih =>
    unfold NuwChallengeService.solveArgon2Loop at h
    rcases ho : oracle (argonCall salt p.memory_cost p.time_cost start) with
      _ | d
    · rw [ho] at h
      exact absurd h (by simp)
    · rw [ho] at h
      dsimp only at h
      by_cases hp : hasLeadingZeros (hexToBytes d) p.difficulty = true
      · rw [if_pos hp] at h
        cases h
        exact ⟨rfl, rfl, rfl, rfl, rfl, rfl⟩
      · rw [if_neg hp] at h
        exact ih (start + 1) h

/-- C2 (amended): both solvers check `expires_at < now` at entry, so a
challenge whose validity window is strictly in the past fails with `EXPIRED`
before any hash computation or dispatch (the result is `EXPIRED` for every
primitive oracle); but a challenge with `expires_at` equal to the current
time is still accepted — only `expires_at < now` is rejected. -/
theorem C2_expiry_check (oracle : Argon2Oracle)
    (ed : NuwChallengeService.EdVerifyOracle)
    (sha : NuwChallengeService.Sha256Oracle) (now maxAttempts : Nat)
    (chP : ChallengeService.TransactionChallenge)
    (chN : NuwChallengeService.NuwChallenge)
    (hP : chP.expires_at < now) (hN : chN.expires_at < now) :
    ChallengeService.solveChallenge oracle now chP maxAttempts =
      .error .EXPIRED ∧
    NuwChallengeService.solveChallenge oracle ed sha now chN =
      .error .EXPIRED := by
  constructor
  · unfold ChallengeService.solveChallenge
    rw [if_pos hP]
  · unfold NuwChallengeService.solveChallenge
    rw [if_pos hN]

/-- Witness for C2 (amended) at `now = 200` against the fixtures expiring
at 100. -/
theorem C2_expiry_check_witness :
    ChallengeService.solveChallenge oracleBlank 200 chPowAtNow 10 =
      .error .EXPIRED ∧
    NuwChallengeService.solveChallenge oracleBlank edNone shaZero32 200
      nuwZkAtNow = .error .EXPIRED :=
  C2_expiry_check oracleBlank edNone shaZero32 200 10 chPowAtNow nuwZkAtNow
    (by decide) (by decide)

/-- C2 counterexample: at `now = 100`, a challenge with `expires_at = 100`
(equal to the current time) does NOT fail with `EXPIRED` on either path —
both solvers proceed and succeed.  The claim's assertion that equality is
already outside the validity window is false: the code rejects only
`expires_at < now`. -/
theorem C2_counterexample :
    ChallengeService.solveChallenge oracleBlank 100 chPowAtNow 10 ≠
      .error .EXPIRED ∧
    NuwChallengeService.solveChallenge oracleBlank edNone shaZero32 100
      nuwZkAtNow ≠ .error .EXPIRED ∧
    ChallengeService.solveChallenge oracleBlank 100 chPowAtNow 10 =
      .ok { challenge_id := "c1", solution := "0000000000000000",
            hash := "" } ∧
    NuwChallengeService.solveChallenge oracleBlank edNone shaZero32 100
      nuwZkAtNow =
      .ok { challenge_id := "n1", challenge_type := .ZK_VERIFY,
            argon2_solution := none, signature_results := none,
            zk_result := some { proof_id := "p1", valid := true },
            merkle_results := none } := by
  refine ⟨by decide, by decide, by decide, by decide⟩

/-- C6 (amended): only the standalone PoW solver validates the nonce: if the
(unexpired) challenge's nonce does not decode to exactly 32 bytes it fails
with `INVALID` for every primitive oracle, i.e. before any Argon2id hashing.
(The NUW `ARGON2_POW`/`PQ_ASSIST` path performs no nonce-length check — see
`C6_counterexample`.) -/
theorem C6_nonce_length_check (oracle : Argon2Oracle) (now maxAttempts : Nat)
    (ch : ChallengeService.TransactionChallenge)
    (hexp : ¬ ch.expires_at < now)
    (hlen : (hexToBytes ch.nonce).length ≠ 32) :
    ChallengeService.solveChallenge oracle now ch maxAttempts =
      .error .INVALID := by
  unfold ChallengeService.solveChallenge
  rw [if_neg hexp, if_pos hlen]

/-- Witness for C6 (amended): a standalone challenge whose nonce decodes to
a single byte fails with `INVALID`. -/
theorem C6_nonce_length_check_witness :
    ChallengeService.solveChallenge oracleBlank 50
      { chPowAtNow with nonce := "00" } 10 = .error .INVALID :=
  C6_nonce_length_check oracleBlank 50 10 { chPowAtNow with nonce := "00" }
    (by decide) (by decide)

/-- C6 counterexample: the NUW dispatcher's `ARGON2_POW` path does not fail
with `INVALID` on a nonce that decodes to 1 byte (`nuwShortNonce`): it
proceeds to Argon2id hashing and, with a passing digest, returns a
solution. -/
theorem C6_counterexample :
    NuwChallengeService.solveChallenge oracleBlank edNone shaZero32 100
      nuwShortNonce ≠ .error .INVALID ∧
    NuwChallengeService.solveChallenge oracleBlank edNone shaZero32 100
      nuwShortNonce =
      .ok { challenge_id := "n2", challenge_type := .ARGON2_POW,
            argon2_solution := some "0000000000000000",
            signature_results := none, zk_result := none,
            merkle_results := none } := by
  refine ⟨by decide, by decide⟩

/-- C7 (amended): when the Argon2id primitive throws (after any number of
clean misses), the standalone PoW solver fails with `WASM_FAILED`, but the
NUW dispatcher's `ARGON2_POW` path fails with `SOLVE_FAILED` — its
`NuwChallengeError` code enumeration does not even contain `WASM_FAILED`. -/
theorem C7_primitive_error_codes (oracle₁ oracle₂ : Argon2Oracle)
    (now maxAttempts k₁ k₂ : Nat)
    (chP : ChallengeService.TransactionChallenge)
    (chN : NuwChallengeService.NuwChallenge)
    (p : NuwChallengeService.NuwArgon2Params)
    (hexpP : ¬ chP.expires_at < now)
    (hnonce : (hexToBytes chP.nonce).length = 32)
    (hk₁ : k₁ < maxAttempts)
    (hmiss₁ : ∀ c < k₁, ∃ e,
      oracle₁ (argonCall (hexToBytes chP.nonce) chP.memory_cost
        chP.time_cost c) = some e ∧
      hasLeadingZeros (hexToBytes e) chP.difficulty = false)
    (hfail₁ : oracle₁ (argonCall (hexToBytes chP.nonce) chP.memory_cost
      chP.time_cost k₁) = none)
    (hexpN : ¬ chN.expires_at < now)
    (htype : chN.challenge_type = .ARGON2_POW)
    (hparams : chN.argon2_params = some p)
    (hk₂ : k₂ < 10000)
    (hmiss₂ : ∀ c < k₂, ∃ e,
      oracle₂ (argonCall (hexToBytes p.nonce) p.memory_cost p.time_cost c) =
        some e ∧
      hasLeadingZeros (hexToBytes e) p.difficulty = false)
    (hfail₂ : oracle₂ (argonCall (hexToBytes p.nonce) p.memory_cost
      p.time_cost k₂) = none)
    (ed : NuwChallengeService.EdVerifyOracle)
    (sha : NuwChallengeService.Sha256Oracle) :
    ChallengeService.solveChallenge oracle₁ now chP maxAttempts =
      .error .WASM_FAILED ∧
    NuwChallengeService.solveChallenge oracle₂ ed sha now chN =
      .error .SOLVE_FAILED := by
  constructor
  · unfold ChallengeService.solveChallenge
    rw [if_neg hexpP, if_neg (by rw [hnonce]; exact fun h => h rfl)]
    exact ChallengeService.solveLoop_primitive_error oracle₁ chP
      (hexToBytes chP.nonce) maxAttempts 0 k₁ (Nat.zero_le _) (by omega)
      (fun c _ hc => hmiss₁ c hc) hfail₁
  · unfold NuwChallengeService.solveChallenge
    rw [if_neg hexpN, htype]
    unfold NuwChallengeService.solveArgon2
    rw [hparams]
    exact NuwChallengeService.solveArgon2Loop_primitive_error oracle₂ chN p
      (hexToBytes p.nonce) 10000 0 k₂ (Nat.zero_le _) (by omega)
      (fun c _ hc => hmiss₂ c hc) hfail₂

/-- Witness for C7 (amended): a primitive that throws on the first attempt
gives `WASM_FAILED` on the standalone solver and `SOLVE_FAILED` on the NUW
path. -/
theorem C7_primitive_error_codes_witness :
    ChallengeService.solveChallenge oracleNone 50 chPowAtNow 10 =
      .error .WASM_FAILED ∧
    NuwChallengeService.solveChallenge oracleNone edNone shaZero32 50
      nuwPow = .error .SOLVE_FAILED :=
  C7_primitive_error_codes oracleNone oracleNone 50 10 0 0 chPowAtNow nuwPow
    { nonce := nonce64, difficulty := 0, memory_cost := 1024, time_cost := 2 }
    (by decide) (by decide) (by decide)
    (fun c hc => absurd hc (Nat.not_lt_zero c)) rfl
    (by decide) (by decide) rfl (by decide)
    (fun c hc => absurd hc (Nat.not_lt_zero c)) rfl edNone shaZero32

/-- C7 counterexample: on the NUW `ARGON2_POW` path a throwing Argon2id
primitive produces `SOLVE_FAILED`, not the claimed `WASM_FAILED` (which the
NUW error-code enumeration does not contain). -/
theorem C7_counterexample :
    NuwChallengeService.solveChallenge oracleNone edNone shaZero32 100
      nuwPow = .error .SOLVE_FAILED := by
  decide

/-- C5: for every challenge carrying a non-empty signature batch, the batch
verifier succeeds (never throws) with exactly one `{ tx_id, valid }` result
per input item, in input order and with matching `tx_id`; an item whose
ed25519 primitive throws or is unavailable (`ed … = none`), and any
`dilithium2` item, contributes `valid = false` without aborting the rest. -/
theorem C5_solveSignatureBatch (ed : NuwChallengeService.EdVerifyOracle)
    (ch : NuwChallengeService.NuwChallenge)
    (batch : List NuwChallengeService.PendingSignature)
    (hb : ch.signature_batch = some batch) (hne : batch ≠ []) :
    ∃ results : List NuwChallengeService.SignatureResult,
      NuwChallengeService.solveSignatureBatch ed ch =
        .ok { challenge_id := ch.challenge_id,
              challenge_type := .SIGNATURE_BATCH, argon2_solution := none,
              signature_results := some results, zk_result := none,
              merkle_results := none } ∧
      results.length = batch.length ∧
      ∀ i sig, batch.get? i = some sig →
        ∃ r, results.get? i = some r ∧ r.tx_id = sig.tx_id ∧
          (sig.algorithm = .dilithium2 → r.valid = false) ∧
          (ed (hexToBytes sig.message) (hexToBytes sig.signature)
              (hexToBytes sig.public_key) = none → r.valid = false) := by
  refine ⟨batch.map fun sig =>
    { tx_id := sig.tx_id,
      valid := NuwChallengeService.verifySignature ed (hexToBytes sig.message)
        (hexToBytes sig.signature) (hexToBytes sig.public_key)
        sig.algorithm }, ?_, by simp, ?_⟩
  · unfold NuwChallengeService.solveSignatureBatch
    rw [hb]
    dsimp only
    rw [if_neg (fun h => hne (List.length_eq_zero.mp h))]
  · intro i sig hi
    refine ⟨_, by rw [List.get?_map, hi, Option.map_some'], rfl, ?_, ?_⟩
    · intro halg
      simp only [NuwChallengeService.verifySignature, halg]
    · intro hnone
      cases halg : sig.algorithm with
      | ed25519 =>
        simp only [NuwChallengeService.verifySignature, halg, hnone]
      | dilithium2 =>
        simp only [NuwChallengeService.verifySignature, halg]

/-- Witness for C5 on the one-item fixture `nuwSigBatch` with an unavailable
ed25519 primitive. -/
theorem C5_solveSignatureBatch_witness :
    ∃ results : List NuwChallengeService.SignatureResult,
      NuwChallengeService.solveSignatureBatch edNone nuwSigBatch =
        .ok { challenge_id := nuwSigBatch.challenge_id,
              challenge_type := .SIGNATURE_BATCH, argon2_solution := none,
              signature_results := some results, zk_result := none,
              merkle_results := none } ∧
      results.length = 1 ∧
      ∀ i sig,
        [({ tx_id := "t1", message := "ab", signature := "cd",
            public_key := "ef", algorithm := .ed25519 } :
            NuwChallengeService.PendingSignature)].get? i = some sig →
        ∃ r, results.get? i = some r ∧ r.tx_id = sig.tx_id ∧
          (sig.algorithm = .dilithium2 → r.valid = false) ∧
          (edNone (hexToBytes sig.message) (hexToBytes sig.signature)
              (hexToBytes sig.public_key) = none → r.valid = false) :=
  C5_solveSignatureBatch edNone nuwSigBatch
    [{ tx_id := "t1", message := "ab", signature := "cd",
       public_key := "ef", algorithm := .ed25519 }] rfl (by decide)

/-- C8: for every unexpired `NuwChallenge`, a missing type-specific payload
(or an empty list for `SIGNATURE_BATCH` / `MERKLE_VERIFY`) makes the
dispatcher fail with `INVALID`, for every primitive oracle — i.e. before any
solving or verification work. -/
theorem C8_dispatcher_missing_payload (oracle : Argon2Oracle)
    (ed : NuwChallengeService.EdVerifyOracle)
    (sha : NuwChallengeService.Sha256Oracle) (now : Nat)
    (ch : NuwChallengeService.NuwChallenge)
    (hexp : ¬ ch.expires_at < now) :
    (ch.challenge_type = .ARGON2_POW → ch.argon2_params = none →
      NuwChallengeService.solveChallenge oracle ed sha now ch =
        .error .INVALID) ∧
    (ch.challenge_type = .SIGNATURE_BATCH →
      (ch.signature_batch = none ∨ ch.signature_batch = some []) →
      NuwChallengeService.solveChallenge oracle ed sha now ch =
        .error .INVALID) ∧
    (ch.challenge_type = .ZK_VERIFY → ch.zk_proof = none →
      NuwChallengeService.solveChallenge oracle ed sha now ch =
        .error .INVALID) ∧
    (ch.challenge_type = .MERKLE_VERIFY →
      (ch.merkle_proofs = none ∨ ch.merkle_proofs = some []) →
      NuwChallengeService.solveChallenge oracle ed sha now ch =
        .error .INVALID) := by
  refine ⟨?_, ?_, ?_, ?_⟩
  · intro htype hpay
    unfold NuwChallengeService.solveChallenge
    rw [if_neg hexp, htype]
    unfold NuwChallengeService.solveArgon2
    rw [hpay]
  · intro htype hpay
    unfold NuwChallengeService.solveChallenge
    rw [if_neg hexp, htype]
    unfold NuwChallengeService.solveSignatureBatch
    rcases hpay with hpay | hpay <;> rw [hpay] <;> rfl
  · intro htype hpay
    unfold NuwChallengeService.solveChallenge
    rw [if_neg hexp, htype]
    unfold NuwChallengeService.solveZkVerify
    rw [hpay]
  · intro htype hpay
    unfold NuwChallengeService.solveChallenge
    rw [if_neg hexp, htype]
    unfold NuwChallengeService.solveMerkleVerify
    rcases hpay with hpay | hpay <;> rw [hpay] <;> rfl

/-- Witness for C8: the unexpired `SIGNATURE_BATCH` fixture with an absent
batch payload fails with `INVALID`. -/
theorem C8_dispatcher_missing_payload_witness :
    NuwChallengeService.solveChallenge oracleBlank edNone shaZero32 50
      nuwSigMissing = .error .INVALID :=
  (C8_dispatcher_missing_payload oracleBlank edNone shaZero32 50
    nuwSigMissing (by decide)).2.1 rfl (Or.inl rfl)

/-- C9: every unexpired `ZK_VERIFY` challenge carrying a `zk_proof` payload
yields the placeholder solution `zk_result = { proof_id, valid := true }` —
regardless of the proof's contents (the theorem quantifies over the task)
and without any verification (the primitive oracles are irrelevant). -/
theorem C9_zk_placeholder (oracle : Argon2Oracle)
    (ed : NuwChallengeService.EdVerifyOracle)
    (sha : NuwChallengeService.Sha256Oracle) (now : Nat)
    (ch : NuwChallengeService.NuwChallenge)
    (task : NuwChallengeService.ZkProofTask)
    (hexp : ¬ ch.expires_at < now)
    (htype : ch.challenge_type = .ZK_VERIFY)
    (hzk : ch.zk_proof = some task) :
    NuwChallengeService.solveChallenge oracle ed sha now ch =
      .ok { challenge_id := ch.challenge_id, challenge_type := .ZK_VERIFY,
            argon2_solution := none, signature_results := none,
            zk_result := some { proof_id := task.proof_id, valid := true },
            merkle_results := none } := by
  unfold NuwChallengeService.solveChallenge
  rw [if_neg hexp, htype]
  unfold NuwChallengeService.solveZkVerify
  rw [hzk]

/-- Witness for C9 on the `ZK_VERIFY` fixture. -/
theorem C9_zk_placeholder_witness :
    NuwChallengeService.solveChallenge oracleBlank edNone shaZero32 50
      nuwZkAtNow =
      .ok { challenge_id := nuwZkAtNow.challenge_id,
            challenge_type := .ZK_VERIFY, argon2_solution := none,
            signature_results := none,
            zk_result := some { proof_id := "p1", valid := true },
            merkle_results := none } :=
  C9_zk_placeholder oracleBlank edNone shaZero32 50 nuwZkAtNow
    { proof_id := "p1", proof_type := "halo2", proof := "",
      public_inputs := [], verification_key := "" }
    (by decide) rfl rfl

/-- C10: every successfully solved `PQ_ASSIST` challenge comes back with
`challenge_type = ARGON2_POW` (the fallback solver's type), not `PQ_ASSIST`,
and with `argon2_solution` as its only result payload — so a caller matching
solutions to challenges by `challenge_type` sees a mismatch. -/
theorem C10_pq_assist_type_mismatch (oracle : Argon2Oracle)
    (ed : NuwChallengeService.EdVerifyOracle)
    (sha : NuwChallengeService.Sha256Oracle) (now : Nat)
    (ch : NuwChallengeService.NuwChallenge)
    (sol : NuwChallengeService.NuwSolution)
    (htype : ch.challenge_type = .PQ_ASSIST)
    (hok : NuwChallengeService.solveChallenge oracle ed sha now ch =
      .ok sol) :
    sol.challenge_type = .ARGON2_POW ∧ sol.challenge_type ≠ .PQ_ASSIST ∧
    sol.argon2_solution.isSome = true ∧ sol.signature_results = none ∧
    sol.zk_result = none ∧ sol.merkle_results = none := by
  unfold NuwChallengeService.solveChallenge at hok
  by_cases hexp : ch.expires_at < now
  · rw [if_pos hexp] at hok
    exact absurd hok (by simp)
  · rw [if_neg hexp, htype] at hok
    unfold NuwChallengeService.solveArgon2 at hok
    rcases hpar : ch.argon2_params with _ | p
    · rw [hpar] at hok
      exact absurd hok (by simp)
    · rw [hpar] at hok
      obtain ⟨_, h2, h3, h4, h5, h6⟩ :=
        NuwChallengeService.solveArgon2Loop_ok_shape oracle ch p
          (hexToBytes p.nonce) 10000 0 sol hok
      exact ⟨h2, by rw [h2]; decide, h3, h4, h5, h6⟩

/-- Witness for C10 on the `PQ_ASSIST` fixture `nuwPq`, solved concretely by
the always-succeeding primitive. -/
theorem C10_pq_assist_type_mismatch_witness :
    ({ challenge_id := "n4", challenge_type := .ARGON2_POW,
       argon2_solution := some "0000000000000000",
       signature_results := none, zk_result := none, merkle_results := none } :
       NuwChallengeService.NuwSolution).challenge_type = .ARGON2_POW ∧
    ({ challenge_id := "n4", challenge_type := .ARGON2_POW,
       argon2_solution := some "0000000000000000",
       signature_results := none, zk_result := none, merkle_results := none } :
       NuwChallengeService.NuwSolution).challenge_type ≠ .PQ_ASSIST ∧
    ({ challenge_id := "n4", challenge_type := .ARGON2_POW,
       argon2_solution := some "0000000000000000",
       signature_results := none, zk_result := none, merkle_results := none } :
       NuwChallengeService.NuwSolution).argon2_solution.isSome = true ∧
    ({ challenge_id := "n4", challenge_type := .ARGON2_POW,
       argon2_solution := some "0000000000000000",
       signature_results := none, zk_result := none, merkle_results := none } :
       NuwChallengeService.NuwSolution).signature_results = none ∧
    ({ challenge_id := "n4", challenge_type := .ARGON2_POW,
       argon2_solution := some "0000000000000000",
       signature_results := none, zk_result := none, merkle_results := none } :
       NuwChallengeService.NuwSolution).zk_result = none ∧
    ({ challenge_id := "n4", challenge_type := .ARGON2_POW,
       argon2_solution := some "0000000000000000",
       signature_results := none, zk_result := none, merkle_results := none } :
       NuwChallengeService.NuwSolution).merkle_results = none :=
  C10_pq_assist_type_mismatch oracleBlank edNone shaZero32 50 nuwPq _
    rfl (by decide)

/-- Writing a 32-byte source at offset 0 and another at offset 32 into the
fresh 64-byte `combined` buffer is exactly list concatenation. -/
theorem jsSet_pair (a b : List Nat) (ha : a.length = 32) (hb : b.length = 32) :
    NuwChallengeService.jsSet (NuwChallengeService.jsSet
      (List.replicate 64 0) a 0) b 32 = a ++ b := by
  unfold NuwChallengeService.jsSet
  rw [List.take_zero, List.nil_append, Nat.zero_add, List.drop_replicate]
  rw [ha, hb]
  norm_num
  rw [List.take_left' ha, List.drop_eq_nil_of_le (by simp [ha]), List.append_nil]

/-- For `index < 2 ^ 32` and `i < 32`, the JavaScript `(index >> i) & 1`
computation agrees with bit `i` of `index` (least significant bit first). -/
theorem isRightBit_eq_one_iff (index i : Nat) (hidx : index < 2 ^ 32)
    (hi : i < 32) :
    (NuwChallengeService.isRightBit index i = 1) ↔ index.testBit i := by
  unfold NuwChallengeService.isRightBit
  rw [Nat.mod_eq_of_lt hidx, Nat.mod_eq_of_lt hi]
  rw [Nat.and_one_is_mod, Nat.shiftRight_eq_div_pow, Nat.testBit_to_div_mod]
  simp

/-- The code's trailing length-then-bytes comparison loop decides list
equality. -/
theorem jsBytesEqual_iff (a b : List Nat) :
    NuwChallengeService.jsBytesEqual a b = true ↔ a = b := by
  unfold NuwChallengeService.jsBytesEqual
  split_ifs with h
  · constructor
    · intro hc; exact hc.elim
    · intro hc; exact absurd (hc ▸ rfl) h
  · rw [Decidable.not_not] at h
    rw [List.all_eq_true]
    constructor
    · intro hall
      refine List.ext_getElem h fun i h1 h2 => ?_
      have := beq_iff_eq.mp (hall i (List.mem_range.mpr h1))
      rwa [List.getD_eq_getElem a 0 h1, List.getD_eq_getElem b 0 h2] at this
    · intro heq i hi
      subst heq
      simp

/-- On 32-byte hashes (with at most 32 proof steps and a 32-bit index) the
source folding loop computes the specification's concatenate-and-hash fold. -/
theorem merkleFoldLoop_eq_spec (sha : NuwChallengeService.Sha256Oracle)
    (index : Nat) (hidx : index < 2 ^ 32)
    (hsha : ∀ bs, (sha bs).length = 32) :
    ∀ (proofHex : List String) (current : List Nat) (i : Nat),
      current.length = 32 →
      (∀ p ∈ proofHex, (hexToBytes p).length = 32) →
      i + proofHex.length ≤ 32 →
      NuwChallengeService.merkleFoldLoop sha index current i proofHex =
        merkleSpecFold sha index current i proofHex := by
  intro proofHex
  induction proofHex with
  | nil => intro current i _ _ _; rfl
  | cons p rest ih =>
    intro current i hcur hsib hbound
    have hp : (hexToBytes p).length = 32 := hsib p (List.mem_cons_self p rest)
    have hi : i < 32 := by
      rw [List.length_cons] at hbound; omega
    unfold NuwChallengeService.merkleFoldLoop merkleSpecFold
    have hrest : ∀ q ∈ rest, (hexToBytes q).length = 32 :=
      fun q hq => hsib q (List.mem_cons_of_mem p hq)
    have hbound' : i + 1 + rest.length ≤ 32 := by
      rw [List.length_cons] at hbound; omega
    by_cases hbit : index.testBit i
    · rw [if_pos ((isRightBit_eq_one_iff index i hidx hi).mpr hbit),
        if_pos hbit, jsSet_pair _ _ hp hcur]
      exact ih (sha _) (i + 1) (hsha _) hrest hbound'
    · rw [if_neg (fun h => hbit ((isRightBit_eq_one_iff index i hidx hi).mp h)),
        if_neg hbit, jsSet_pair _ _ hcur hp]
      exact ih (sha _) (i + 1) (hsha _) hrest hbound'

set_option maxRecDepth 8192 in
/-- C3 counterexample: the claim quantifies over every `MerkleProofTask`,
but at step 32 of a 33-step proof the source's `(index >> i) & 1` reuses bit
`32 % 32 = 0` instead of the claimed bit 32.  With `index = 1`, a zero leaf,
32 siblings of `0x01…01` and a 33rd sibling of `0x02…02`, under a hash that
keeps the first operand of the concatenation: bit 0 of `index` is 1, so the
code hashes `sibling ‖ current` at step 32 and accepts root `0x02…02`, while
the claimed bit-32-of-index rule (bit 32 of 1 is 0, so `current ‖ sibling`)
produces `0x01…01` — the code returns true where the claimed procedure
requires false. -/
theorem C3_counterexample :
    NuwChallengeService.verifyMerkleProof shaTake32 hexTwos64 nonce64 proof33
        1 = true ∧
    merkleSpecFold shaTake32 1 (hexToBytes nonce64) 0 proof33 ≠
      hexToBytes hexTwos64 := by
  refine ⟨by decide, by decide⟩

/-- C3 (amended): for every `MerkleProofTask` whose leaf, root and sibling
hashes all decode to 32 bytes, with at most 32 proof steps and an index
below `2^32` — the range on which JavaScript's 32-bit shift
`(index >> i) & 1` computes bit `i` of `index`; outside it the shift count
wraps mod 32 and the claimed rule fails, see `C3_counterexample` — and a
32-byte-output SHA-256 primitive, Merkle verification starts from the leaf
and at step `i` hashes `sibling ‖ current` when bit `i` of `index` (least
significant bit first) is 1 and `current ‖ sibling` otherwise, returning
true iff the final digest equals the root byte-for-byte and in length
(`merkleSpecFold … = hexToBytes task.root` is list equality, which includes
length).  The embedded function is total: it never throws. -/
theorem C3_verifyMerkleProof (sha : NuwChallengeService.Sha256Oracle)
    (task : NuwChallengeService.MerkleProofTask)
    (hsha : ∀ bs, (sha bs).length = 32)
    (hleaf : (hexToBytes task.leaf).length = 32)
    (hsib : ∀ p ∈ task.proof, (hexToBytes p).length = 32)
    (hlen : task.proof.length ≤ 32)
    (hidx : task.index < 2 ^ 32) :
    NuwChallengeService.verifyMerkleProof sha task.root task.leaf task.proof
        task.index = true ↔
      merkleSpecFold sha task.index (hexToBytes task.leaf) 0 task.proof =
        hexToBytes task.root := by
  unfold NuwChallengeService.verifyMerkleProof
  rw [merkleFoldLoop_eq_spec sha task.index hidx hsha task.proof
    (hexToBytes task.leaf) 0 hleaf hsib (by omega)]
  exact jsBytesEqual_iff _ _

/-- Witness for C3 on a one-step all-zero task with the constant-zero
SHA-256 stand-in. -/
theorem C3_verifyMerkleProof_witness :
    NuwChallengeService.verifyMerkleProof shaZero32 nonce64 nonce64 [nonce64]
        0 = true ↔
      merkleSpecFold shaZero32 0 (hexToBytes nonce64) 0 [nonce64] =
        hexToBytes nonce64 :=
  C3_verifyMerkleProof shaZero32 ⟨nonce64, nonce64, [nonce64], 0⟩
    (fun _ => rfl) (by decide) (by decide) (by decide) (by decide)
